import Mathlib

/-!
Verification of the Go-LLM-Router dispatch engine against its specification.

Each Go function relevant to the checked claims is shallowly embedded as an
executable Lean definition, translated directly from the source files
(`src/core/key_manager.go`, `src/core/router.go`, `src/core/proxy.go`,
`src/core/adapter/openai.go`, and the `core` package parts holding
`LoadBalancer.Route`, `RoundRobinStrategy.Select` and the async log writer).
Time is modelled as a natural number (nanoseconds are irrelevant to the
properties at stake); machine integers are modelled as `Nat` with explicit
reduction modulo `2 ^ 64` where wraparound matters.
-/

namespace LLMRouter

/-! ## Credential health store (`src/core/key_manager.go`) -/

/-- Status enumeration `KeyStatusType` from key_manager.go. -/
inductive KeyStatusType where
  | available
  | cooldown
  | dead
deriving DecidableEq, Repr

/-- Embeds `KeyState` from key_manager.go: a status plus its unlock time.
Go's zero `time.Time` for dead entries is modelled as unlock time 0. -/
structure KeyState where
  status : KeyStatusType
  unlockTime : Nat
deriving DecidableEq, Repr

/-- The in-memory map `states : map[string]KeyState`; absent entries mean
available. -/
def KeyStates := String → Option KeyState

/-- The empty state map (`NewKeyStateManager`). -/
def emptyKeyStates : KeyStates := fun _ => none

/-- Embeds `MarkCooldown` from key_manager.go: stores `{Cooldown, now + duration}`,
overriding any existing state. `now` is the clock reading at call time. -/
def markCooldown (m : KeyStates) (key : String) (now duration : Nat) : KeyStates :=
  fun k => if k = key then some ⟨KeyStatusType.cooldown, now + duration⟩ else m k

/-- Embeds `MarkDead` from key_manager.go: stores `{Dead}` (zero unlock time). -/
def markDead (m : KeyStates) (key : String) : KeyStates :=
  fun k => if k = key then some ⟨KeyStatusType.dead, 0⟩ else m k

/-- Embeds `MarkAvailable` from key_manager.go: deletes the entry. -/
def markAvailable (m : KeyStates) (key : String) : KeyStates :=
  fun k => if k = key then none else m k

/-- Embeds `IsAvailable` from key_manager.go, with the clock reading `now` passed
explicitly. Returns the availability verdict together with the possibly
updated map: an expired cooldown entry is lazily evicted via `MarkAvailable`.
Go's `time.Now().After(state.UnlockTime)` is a strict comparison, embedded
as `state.unlockTime < now`. -/
def isAvailable (m : KeyStates) (key : String) (now : Nat) : Bool × KeyStates :=
  match m key with
  | none => (true, m)
  | some state =>
    match state.status with
    | KeyStatusType.dead => (false, m)
    | KeyStatusType.cooldown =>
        if state.unlockTime < now then (true, markAvailable m key) else (false, m)
    | KeyStatusType.available => (true, m)

/-- A health-store mutation, for reasoning about operation sequences. -/
inductive KeyOp where
  | cooldown (key : String) (now duration : Nat)
  | dead (key : String)
  | available (key : String)
deriving DecidableEq, Repr

/-- Apply one mutation to the store. -/
def applyKeyOp (m : KeyStates) : KeyOp → KeyStates
  | KeyOp.cooldown key now duration => markCooldown m key now duration
  | KeyOp.dead key => markDead m key
  | KeyOp.available key => markAvailable m key

/-- Apply a sequence of mutations left to right. -/
def applyKeyOps (m : KeyStates) (ops : List KeyOp) : KeyStates :=
  ops.foldl applyKeyOp m

/-- An operation touches `key` when it can change that key's entry:
`markAvailable key` or `markCooldown key`. -/
def touchesKey (key : String) : KeyOp → Bool
  | KeyOp.cooldown k _ _ => k = key
  | KeyOp.dead _ => false
  | KeyOp.available k => k = key

/-! ## Failure classification (`src/core/router.go`) -/

/-- Embeds `IsClientError` from router.go. -/
def isClientError (statusCode : Nat) : Bool :=
  400 ≤ statusCode && statusCode < 500 && statusCode ≠ 401 &&
    statusCode ≠ 403 && statusCode ≠ 429

/-- Embeds `IsAuthError` from router.go: 401, 403 and 429 all land here. -/
def isAuthError (statusCode : Nat) : Bool :=
  statusCode = 401 || statusCode = 403 || statusCode = 429

/-- Embeds `IsServerError` from router.go. -/
def isServerError (statusCode : Nat) : Bool :=
  500 ≤ statusCode

/-- Embeds `IsHardError` from router.go as invoked from `ProxyRequest`
(`h.router.IsHardError(resp.StatusCode, nil)`): the error argument is
always nil there, so only the status-code switch is reachable. -/
def isHardError (statusCode : Nat) : Bool :=
  statusCode = 400 || statusCode = 404 || statusCode = 405

/-! ## Retry cursor (`src/core/proxy.go`) -/

/-- The `(modelCursor, keyCursor)` pair threaded through `ProxyRequest`. -/
structure Cursor where
  modelIdx : Nat
  keyIdx : Nat
deriving DecidableEq, Repr

/-- Embeds `advanceCursors` from proxy.go: try the next key; when keys are
exhausted, switch model unless pinned; wrap to model 0 under round_robin.
Returns the updated cursor and the Go function's boolean result (which
`ProxyRequest` discards). -/
def advanceCursors (c : Cursor) (totalModels totalKeys : Nat)
    (isPinned : Bool) (strategy : String) : Cursor × Bool :=
  if totalKeys = 0 then (c, false)
  else if c.keyIdx < totalKeys - 1 then ({ c with keyIdx := c.keyIdx + 1 }, true)
  else if isPinned then (c, false)
  else if totalModels = 0 then (c, false)
  else
    let m := c.modelIdx + 1
    if m < totalModels then (⟨m, 0⟩, true)
    else if strategy = "round_robin" then (⟨0, 0⟩, true)
    else (⟨m, 0⟩, false)

/-- Embeds `skipToNextModel` from proxy.go: jump to the next model, discarding the
remaining keys of the current one; wrap to model 0 under round_robin. -/
def skipToNextModel (c : Cursor) (totalModels : Nat)
    (isPinned : Bool) (strategy : String) : Cursor × Bool :=
  if isPinned then (c, false)
  else
    let m := c.modelIdx + 1
    if m < totalModels then (⟨m, 0⟩, true)
    else if strategy = "round_robin" then (⟨0, 0⟩, true)
    else (⟨m, 0⟩, false)

/-- The non-200 branch of `ProxyRequest` (proxy.go lines 370-397): classify
the upstream status and move the cursor. The credential health store is
passed through unchanged because that code performs no `MarkCooldown`,
`MarkDead` or `MarkAvailable` call on any branch. -/
def handleFailureStatus (states : KeyStates) (c : Cursor) (_key : String)
    (statusCode : Nat) (totalModels totalKeys : Nat)
    (isPinned : Bool) (strategy : String) : KeyStates × Cursor :=
  if isHardError statusCode then
    (states, (skipToNextModel c totalModels isPinned strategy).1)
  else if isAuthError statusCode then
    (states, (advanceCursors c totalModels totalKeys isPinned strategy).1)
  else if isServerError statusCode then
    (states, (advanceCursors c totalModels totalKeys isPinned strategy).1)
  else
    (states, (advanceCursors c totalModels totalKeys isPinned strategy).1)

/-! ## Routing snapshot and attempt budget (`src/core/router.go`) -/

/-- One `ModelConfig` as cached by the router (the fields the dispatch path
reads). -/
structure ModelConfigC where
  id : Nat
  upstreamModel : String
deriving DecidableEq, Repr

/-- One `ModelGroup` as cached by the router. -/
structure ModelGroupC where
  groupID : String
  strategy : String
  models : List ModelConfigC
deriving DecidableEq, Repr

/-- The router's in-memory cache: the group list (`modelGroups` together
with `modelConfigMap`) and `keyMap : model_config_id -> keys`. -/
structure Snapshot where
  groups : List ModelGroupC
  keyMap : Nat → List String

/-- Group lookup (`r.modelConfigMap[groupID]`). -/
def findGroup (snap : Snapshot) (groupID : String) : Option ModelGroupC :=
  snap.groups.find? (fun g => g.groupID = groupID)

/-- The total key count summed over a group's models, 0 when the group is
missing (matches the `totalKeys` accumulation in `CalculateMaxRetries`). -/
def totalKeysOfGroup (snap : Snapshot) (groupID : String) : Nat :=
  match findGroup snap groupID with
  | none => 0
  | some g => (g.models.map (fun m => (snap.keyMap m.id).length)).sum

/-- Embeds `CalculateMaxRetries` from router.go. `int(float64(totalKeys) * 1.5)`
truncates the product toward zero, which for naturals is `3 * k / 2` in
integer division (exact: `float64` represents `1.5 * k` exactly for every
key count below `2 ^ 52`). -/
def calculateMaxRetries (snap : Snapshot) (groupID : String) : Nat :=
  match findGroup snap groupID with
  | none => 3
  | some g =>
    if g.models.length = 0 then 3
    else
      let totalKeys := (g.models.map (fun m => (snap.keyMap m.id).length)).sum
      let maxRetries := 3 * totalKeys / 2
      let maxRetries := if maxRetries < 3 then 3 else maxRetries
      if maxRetries > 12 then 12 else maxRetries

/-- The budget formula as the specification words it:
`clamp(ceil(1.5 * totalKeys), 3, 12)`. Stated from the spec, for comparison
with `calculateMaxRetries`. -/
def maxAttemptsClaimed (snap : Snapshot) (groupID : String) : Nat :=
  let k := totalKeysOfGroup snap groupID
  min 12 (max 3 ((3 * k + 1) / 2))

/-- The per-model decrypted key lists of a group in model order
(`group.Models` joined with `GetModelKeys`); `[]` when the group is
missing. -/
def groupKeyLists (snap : Snapshot) (groupID : String) : List (List String) :=
  match findGroup snap groupID with
  | none => []
  | some g => g.models.map (fun m => snap.keyMap m.id)

/-! ## The dispatch loop of `ProxyRequest` (`src/core/proxy.go`) -/

/-- The result of one upstream HTTP call (`h.client.Do`): a transport error
or a response with a status code. -/
inductive Outcome where
  | netErr
  | status (code : Nat)
deriving DecidableEq, Repr

/-- How the dispatch loop terminated. -/
inductive LoopOutcome where
  | ok
  | noKeys503
  | exhausted
deriving DecidableEq, Repr

/-- Observable result of the dispatch loop: the number of upstream calls
issued, the status of the last upstream response if any attempt reached the
upstream, and the terminal branch taken. -/
structure LoopRes where
  calls : Nat
  lastStatus : Option Nat
  outcome : LoopOutcome
deriving DecidableEq, Repr

/-- The inner skip loop of `ProxyRequest` for a model with no keys: advance
`modelCursor` modulo the model count until a model with keys appears, or
give up on returning to the starting index. The Go `for` loop revisits the
start after at most `keys.length` steps, so that fuel bound is exact. -/
def scanNextWithKeys (keys : List (List String)) (orig : Nat) :
    Nat → Nat → Option Nat
  | _, 0 => none
  | cur, fuel + 1 =>
    let nxt := (cur + 1) % keys.length
    if (keys.getD nxt []).length > 0 then some nxt
    else if nxt = orig then none
    else scanNextWithKeys keys orig nxt fuel

/-- The cursor movement of the non-200 branch of `ProxyRequest`
(proxy.go lines 383-397): hard errors skip the model, every other status
class advances the key cursor via `advanceCursors`. -/
def cursorAfterFailure (c : Cursor) (statusCode totalModels totalKeys : Nat)
    (isPinned : Bool) (strategy : String) : Cursor :=
  if isHardError statusCode then
    (skipToNextModel c totalModels isPinned strategy).1
  else if isAuthError statusCode then
    (advanceCursors c totalModels totalKeys isPinned strategy).1
  else if isServerError statusCode then
    (advanceCursors c totalModels totalKeys isPinned strategy).1
  else
    (advanceCursors c totalModels totalKeys isPinned strategy).1

/-- The `for attempt := 0; attempt < maxAttempts; attempt++` loop of
`ProxyRequest`, driven by an oracle giving the outcome of each successive
upstream call. Arguments after the oracle: model cursor, key cursor, calls
issued so far, last upstream status so far, remaining loop iterations.
A model without keys is skipped via `scanNextWithKeys` without issuing a
call (the `continue` still consumes a loop iteration); a network error
advances the cursors directly; a 200 terminates with success; any other
status is classified by `cursorAfterFailure`. `ProxyRequest` reaches this
loop only after its prechecks (group found, some model has keys). -/
def runLoop (keys : List (List String)) (isPinned : Bool) (strategy : String)
    (oracle : Nat → Outcome) :
    Nat → Nat → Nat → Option Nat → Nat → LoopRes
  | _, _, calls, lastStatus, 0 => ⟨calls, lastStatus, LoopOutcome.exhausted⟩
  | mc, kc, calls, lastStatus, fuel + 1 =>
    let n := keys.length
    let mIdx := mc % n
    let mKeys := keys.getD mIdx []
    if mKeys.length = 0 then
      if isPinned then ⟨calls, lastStatus, LoopOutcome.noKeys503⟩
      else
        match scanNextWithKeys keys mIdx mIdx n with
        | none => ⟨calls, lastStatus, LoopOutcome.noKeys503⟩
        | some nxt => runLoop keys isPinned strategy oracle nxt 0 calls lastStatus fuel
    else
      match oracle calls with
      | Outcome.netErr =>
        let c := (advanceCursors ⟨mc, kc⟩ n mKeys.length isPinned strategy).1
        runLoop keys isPinned strategy oracle c.modelIdx c.keyIdx (calls + 1) lastStatus fuel
      | Outcome.status s =>
        if s = 200 then ⟨calls + 1, some 200, LoopOutcome.ok⟩
        else
          let c := cursorAfterFailure ⟨mc, kc⟩ s n mKeys.length isPinned strategy
          runLoop keys isPinned strategy oracle c.modelIdx c.keyIdx (calls + 1) (some s) fuel

/-- Embeds `sendFinalErrorResponse` from proxy.go: with an upstream response it
forwards that response's status, otherwise it answers with the given
status code as an OpenAI-shaped error JSON. -/
def sendFinalErrorResponse (statusCode : Nat) (upstreamResp : Option Nat) : Nat :=
  match upstreamResp with
  | some s => s
  | none => statusCode

/-- The HTTP status the client sees for each loop termination. On budget
exhaustion `ProxyRequest` calls `sendFinalErrorResponse(c, 502, nil, err)`:
the upstream-response argument is nil on every call site. -/
def finalClientStatus : LoopRes → Nat
  | ⟨_, _, LoopOutcome.ok⟩ => 200
  | ⟨_, _, LoopOutcome.noKeys503⟩ => sendFinalErrorResponse 503 none
  | ⟨_, _, LoopOutcome.exhausted⟩ => sendFinalErrorResponse 502 none

/-- The terminal status as the specification words it: 502 when every
attempt failed with a network error (no upstream status observed),
otherwise the status of the last upstream response. Stated from the spec,
for comparison with `finalClientStatus`. -/
def finalStatusClaimed (res : LoopRes) : Nat :=
  match res.lastStatus with
  | none => 502
  | some s => s

/-! ## Routing-token parsing (`ParseModelRouting`, `src/core/router.go`) -/

/-- Embeds `models.RoutingInfo`: group id, optional 0-based pinned model index
(`*int` in Go, so `Option Int`), pin flag. The `KeyIndex` field is never
set by `ParseModelRouting` and is omitted. -/
structure RoutingInfo where
  groupID : String
  modelIndex : Option Int
  isPinned : Bool
deriving DecidableEq, Repr

/-- Embeds `strings.Contains(s, "$")`. -/
def strContainsChar (s : String) (c : Char) : Bool :=
  s.data.contains c

/-- Embeds `strings.TrimSpace`, over the ASCII whitespace relevant here (Go trims
all Unicode space; the difference is immaterial to the parsed tokens). -/
def goTrimSpace (s : String) : String :=
  ⟨((s.data.dropWhile Char.isWhitespace).reverse.dropWhile Char.isWhitespace).reverse⟩

/-- Embeds `strings.SplitN(s, "$", 2)` when `s` contains a dollar sign: the text
before the first dollar and everything after it. (The Go branch for
`len(parts) != 2` is unreachable under that containment check.) -/
def splitFirstDollar (s : String) : String × String :=
  (⟨s.data.takeWhile (fun c => c ≠ '$')⟩,
   ⟨(s.data.dropWhile (fun c => c ≠ '$')).drop 1⟩)

/-- Digit run to number, most significant first. -/
def digitsToNat (l : List Char) : Nat :=
  l.foldl (fun acc c => acc * 10 + (c.toNat - '0'.toNat)) 0

/-- Embeds `strconv.Atoi`: optional sign followed by a nonempty digit run, nothing
else. (Go additionally fails on 64-bit overflow; that bound is elided —
for the routing claims only the sign of the result matters.) -/
def goAtoi (s : String) : Option Int :=
  match s.data with
  | [] => none
  | '+' :: rest =>
    if rest.isEmpty then none
    else if rest.all Char.isDigit then some (digitsToNat rest) else none
  | '-' :: rest =>
    if rest.isEmpty then none
    else if rest.all Char.isDigit then some (-(digitsToNat rest : Int)) else none
  | l =>
    if l.all Char.isDigit then some (digitsToNat l) else none

/-- The group table as `ParseModelRouting` iterates it via
`GetAllModelGroups`: group id together with the `UpstreamModel` names of
its models in order. (Go iterates a map in unspecified order; the list
fixes one such order.) -/
def GroupTable := List (String × List String)

/-- The model scan of the smart-routing branch: the first group holding a
`ModelConfig` whose `UpstreamModel` equals the token, with that model's
index. -/
def findModelMatch : GroupTable → String → Option (String × Nat)
  | [], _ => none
  | (gid, ms) :: rest, tok =>
    match ms.findIdx? (fun m => m = tok) with
    | some idx => some (gid, idx)
    | none => findModelMatch rest tok

/-- Embeds `ParseModelRouting` from router.go. For a token without a dollar sign
the code scans all groups for a matching upstream-model name first and
falls back to a group-id lookup (both non-match and group-match return the
token unchanged as a non-pinned group id). With a dollar sign, the suffix
must parse as an integer at least 1, otherwise the pin downgrades to
strategy mode. -/
def parseModelRouting (groups : GroupTable) (modelInput : String) : RoutingInfo :=
  if modelInput = "" then ⟨modelInput, none, false⟩
  else if !(strContainsChar modelInput '$') then
    match findModelMatch groups modelInput with
    | some (gid, idx) => ⟨gid, some (idx : Int), true⟩
    | none =>
      if groups.any (fun g => g.1 = modelInput) then ⟨modelInput, none, false⟩
      else ⟨modelInput, none, false⟩
  else
    let parts := splitFirstDollar modelInput
    let gid := goTrimSpace parts.1
    let idxStr := goTrimSpace parts.2
    if gid = "" then ⟨modelInput, none, false⟩
    else
      match goAtoi idxStr with
      | none => ⟨gid, none, false⟩
      | some userIndex =>
        if userIndex < 1 then ⟨gid, none, false⟩
        else ⟨gid, some (userIndex - 1), true⟩

/-- The dollar-free parsing order as the claim words it: group-id lookup
first, model scan only if no group matches. Stated from the spec, for
comparison with `parseModelRouting`. -/
def parseNoDollarClaimed (groups : GroupTable) (tok : String) : RoutingInfo :=
  if groups.any (fun g => g.1 = tok) then ⟨tok, none, false⟩
  else
    match findModelMatch groups tok with
    | some (gid, idx) => ⟨gid, some (idx : Int), true⟩
    | none => ⟨tok, none, false⟩

/-- The dollar-free parsing order the code actually implements: model scan
first (empty token excepted), group-id lookup only afterwards — and since
a successful group lookup returns the same value as a failed one, the scan
fully determines the result. -/
def parseNoDollarAmended (groups : GroupTable) (tok : String) : RoutingInfo :=
  if tok = "" then ⟨tok, none, false⟩
  else
    match findModelMatch groups tok with
    | some (gid, idx) => ⟨gid, some (idx : Int), true⟩
    | none => ⟨tok, none, false⟩

/-! ## Strategies and `LoadBalancer.Route` (core package parts 006 / 008) -/

/-- Embeds `2 ^ 64`, the modulus of Go's `uint64`. -/
def U64 : Nat := 2 ^ 64

/-- Embeds `RequestCounter.Add(1)` on a `uint64`. -/
def u64add1 (c : Nat) : Nat := (c + 1) % U64

/-- The index computed by `RoundRobinStrategy.Select`:
`(counter - 1) % len` in `uint64` arithmetic, where subtraction wraps at
zero. -/
def rrSelectIdx (counter len : Nat) : Nat :=
  ((counter + (U64 - 1)) % U64) % len

/-- Embeds `RoundRobinStrategy.Select` from the strategy file: errors only on an
empty list, otherwise picks the wrapped round-robin index. -/
def rrSelect {α : Type} (configs : List α) (counter : Nat) : Option α :=
  match configs with
  | [] => none
  | _ => configs.get? (rrSelectIdx counter configs.length)

/-- Embeds `FallbackStrategy.Select`: always the first element, errors only on an
empty list. -/
def fallbackSelect {α : Type} (configs : List α) (_counter : Nat) : Option α :=
  match configs with
  | [] => none
  | c :: _ => some c

/-- The strategy-index resolution of `LoadBalancer.Route`: the registry
holds exactly round_robin and fallback; an empty or unknown name resolves
to round_robin. Returns the selected model index. -/
def selectIdxByStrategy (strategy : String) (models : List ModelConfigC)
    (counter : Nat) : Option Nat :=
  match models with
  | [] => none
  | _ =>
    if strategy = "fallback" then some 0
    else some (rrSelectIdx counter models.length)

/-- The key scan of `LoadBalancer.Route`: for `i` from 0, the key at index
`(count + i) % len`, first one the health store reports available. (The Go
negative-index guard is unreachable for counts below `2 ^ 63` and is
elided.) Reading availability cannot change the verdict, so the store is
used read-only here. -/
def scanKeys (ks : KeyStates) (now : Nat) (keys : List String) (count : Nat) :
    Option String :=
  ((List.range keys.length).map
      (fun i => keys.getD ((count + i) % keys.length) "")).find?
    (fun k => (isAvailable ks k now).1)

/-- Observable result of one `LoadBalancer.Route` call: the group counter
after the call, the selected model index, and the selected credential. -/
structure RouteObs where
  counterAfter : Nat
  modelIdx : Option Nat
  key : Option String
deriving DecidableEq, Repr

/-- The key phase of `LoadBalancer.Route` (after model selection): error on
an empty key list, otherwise bump the counter a second time and scan. -/
def routeKeyPhase (keysOf : Nat → List String) (models : List ModelConfigC)
    (mIdx : Nat) (ks : KeyStates) (now : Nat) (counter : Nat) : RouteObs :=
  let model := models.getD mIdx ⟨0, ""⟩
  let keys := keysOf model.id
  if keys.length = 0 then ⟨counter, some mIdx, none⟩
  else
    let count := u64add1 counter
    ⟨count, some mIdx, scanKeys ks now keys count⟩

/-- Embeds `LoadBalancer.Route` from the part that owns it, after the group lookup
succeeded with a nonempty model list. `pinIndex` is the already-decoded
0-based pin (`-1` in Go becomes `none`). A pinned call selects the pinned
model without touching the counter; a strategy call bumps the counter once
for model selection; either way the key phase bumps it once more when the
selected model has keys. -/
def routeC (strategy : String) (models : List ModelConfigC)
    (keysOf : Nat → List String) (pinIndex : Option Nat)
    (ks : KeyStates) (now : Nat) (counter : Nat) : RouteObs :=
  match pinIndex with
  | some p =>
    if models.length ≤ p then ⟨counter, none, none⟩
    else routeKeyPhase keysOf models p ks now counter
  | none =>
    let c1 := u64add1 counter
    match selectIdxByStrategy strategy models c1 with
    | none => ⟨c1, none, none⟩
    | some mIdx => routeKeyPhase keysOf models mIdx ks now c1

/-- Iterate non-pinned `Route` calls, collecting the selected model index
of each call (the spec scenario "N·k consecutive routing calls"). -/
def routeSimModels (strategy : String) (models : List ModelConfigC)
    (keysOf : Nat → List String) (ks : KeyStates) (now : Nat) :
    Nat → Nat → List (Option Nat)
  | _, 0 => []
  | counter, n + 1 =>
    let obs := routeC strategy models keysOf none ks now counter
    obs.modelIdx :: routeSimModels strategy models keysOf ks now obs.counterAfter n

/-! ## Async log writer (core package part 005) -/

/-- A request log record, reduced to the fields the writer moves around
(their values are irrelevant to the queueing behaviour). -/
structure RequestLogC where
  status : Nat
  path : String
deriving DecidableEq, Repr

/-- Channel capacity of `logChan`. -/
def logChanCap : Nat := 1000

/-- Flush threshold `batchSize`. -/
def logBatchSize : Nat := 100

/-- Embeds `Log`: non-blocking send — append to the channel when below capacity,
drop the record otherwise. -/
def logEnqueue (chan : List RequestLogC) (lg : RequestLogC) : List RequestLogC :=
  if chan.length < logChanCap then chan ++ [lg] else chan

/-- One scheduling choice of the worker's `select`: receive a queued log,
a flush-timer tick, or the quit signal. -/
inductive WorkerEvent where
  | recv
  | tick
  | quit
deriving DecidableEq, Repr

/-- Embeds `workerLoop` run over a schedule of select choices, returning the
persisted store when the trace ends. `recv` moves one log from the channel
into the batch, flushing at `batchSize`; `tick` flushes a nonempty batch;
`quit` flushes the pending batch and returns immediately — the channel
contents are not drained. `flush` is modelled as appending to the store
(`CreateInBatches`). -/
def workerRun : List RequestLogC → List RequestLogC → List RequestLogC →
    List WorkerEvent → List RequestLogC
  | _, _, store, [] => store
  | chan, batch, store, WorkerEvent.recv :: evs =>
    match chan with
    | [] => workerRun [] batch store evs
    | lg :: rest =>
      let batch2 := batch ++ [lg]
      if logBatchSize ≤ batch2.length then workerRun rest [] (store ++ batch2) evs
      else workerRun rest batch2 store evs
  | chan, batch, store, WorkerEvent.tick :: evs =>
    if batch.isEmpty then workerRun chan batch store evs
    else workerRun chan [] (store ++ batch) evs
  | _, batch, store, WorkerEvent.quit :: _ =>
    if batch.isEmpty then store else store ++ batch

/-! ## OpenAI adapter URL handling (`src/core/adapter/openai.go`) -/

/-- Embeds `strings.Contains` over full strings: some suffix of `s` starts with
`sub`. -/
def strContains (s sub : String) : Bool :=
  s.data.tails.any (fun t => List.isPrefixOf sub.data t)

/-- Embeds `strings.HasSuffix`. -/
def strHasSuffix (s suf : String) : Bool :=
  List.isSuffixOf suf.data s.data

/-- Embeds `strings.TrimSuffix(path, "/")`: drop one trailing slash if present. -/
def goTrimOneSlash (path : String) : String :=
  if strHasSuffix path "/" then ⟨path.data.dropLast⟩ else path

/-- The outer condition of the auto-append block in `ConvertRequest`: the
path contains none of the recognized endpoint markers. -/
def pathLacksEndpointMarkers (path : String) : Bool :=
  !(strContains path "/chat/completions") && !(strContains path "/images/") &&
    !(strContains path "/audio/") && !(strContains path "/embeddings")

/-- The inner condition of the auto-append block: the path is empty, the
root, or ends in `/v1` or `/v1/`. -/
def pathLooksLikeBase (path : String) : Bool :=
  path = "" || path = "/" || strHasSuffix path "/v1" || strHasSuffix path "/v1/"

/-- The URL-path rewrite of `OpenAIAdapter.ConvertRequest` (openai.go lines
55-69): append `/chat/completions` only when the path lacks every endpoint
marker and additionally looks like a bare base path. -/
def autoAppendPath (path : String) : String :=
  if pathLacksEndpointMarkers path then
    if pathLooksLikeBase path then goTrimOneSlash path ++ "/chat/completions"
    else path
  else path

/-! ## Per-model statistics (`UpdateStats`, `src/core/router.go`) -/

/-- The in-memory `models.ModelStats` counters `UpdateStats` touches. The
Go fields are `int`/`float64`; they are only ever incremented here, so
naturals are faithful for the counters. -/
structure ModelStatsC where
  success : Nat
  error : Nat
  totalLatency : Float
  requestCount : Nat

/-- The zero record `UpdateStats` creates lazily on first touch. -/
def zeroStats : ModelStatsC := ⟨0, 0, 0, 0⟩

/-- The in-memory mutation of `UpdateStats`: bump success or error, add the
latency, bump the request count. -/
def updateStats (s : ModelStatsC) (ok : Bool) (latency : Float) : ModelStatsC :=
  { success := if ok then s.success + 1 else s.success
    error := if ok then s.error else s.error + 1
    totalLatency := s.totalLatency + latency
    requestCount := s.requestCount + 1 }

/-- A sequence of `UpdateStats` calls against one stats record, starting
from the lazily-created zero record. -/
def runUpdateStats (calls : List (Bool × Float)) : ModelStatsC :=
  calls.foldl (fun st c => updateStats st c.1 c.2) zeroStats

/-! ## Concrete fixtures used by the counterexamples and witnesses -/

/-- A snapshot with one group of one model holding three keys. -/
def c2Snapshot : Snapshot :=
  ⟨[⟨"g", "fallback", [⟨1, "m"⟩]⟩],
   fun i => if i = 1 then ["a", "b", "c"] else []⟩

/-- A group table where the token "g2" names both a group and a model:
group g1 holds a model whose upstream name is "g2", and a group with id
"g2" exists as well. -/
def c4Groups : GroupTable := [("g1", ["g2"]), ("g2", ["m"])]

/-- A routing table with one group and one model. -/
def c9Groups : GroupTable := [("g", ["m"])]

/-- Two models with one key each, for the round-robin simulation. -/
def c5Models : List ModelConfigC := [⟨1, "m1"⟩, ⟨2, "m2"⟩]

/-- Key lists for `c5Models`. -/
def c5Keys : Nat → List String :=
  fun i => if i = 1 then ["a"] else if i = 2 then ["b"] else []

/-- A dispatch run over one model with one key where every upstream call
answers 429, with the budget the code computes for one key. -/
def c6Run : LoopRes :=
  runLoop [["k1"]] false "fallback" (fun _ => Outcome.status 429) 0 0 0 none 3

/-- One request log record. -/
def c7Log : RequestLogC := ⟨500, "/x"⟩

/-! # Theorems -/

/-- A dead entry survives any sequence of store operations that neither
clears nor re-cools the key. -/
theorem applyKeyOps_dead_aux (ops : List KeyOp) :
    ∀ (m : KeyStates) (key : String),
      (∀ op ∈ ops, touchesKey key op = false) →
      m key = some ⟨KeyStatusType.dead, 0⟩ →
      applyKeyOps m ops key = some ⟨KeyStatusType.dead, 0⟩ := by
  induction ops with
  | nil => intro m key _ hm; simpa [applyKeyOps] using hm
  | cons op rest ih =>
    intro m key h hm
    have hop : touchesKey key op = false := h op (List.mem_cons_self _ _)
    have hrest : ∀ o ∈ rest, touchesKey key o = false :=
      fun o ho => h o (List.mem_cons_of_mem _ ho)
    have hstep : applyKeyOp m op key = some ⟨KeyStatusType.dead, 0⟩ := by
      cases op with
      | cooldown k2 n d =>
        have hne : ¬ (key = k2) := by
          intro hkk; subst hkk; simp [touchesKey] at hop
        simpa [applyKeyOp, markCooldown, hne] using hm
      | dead k2 =>
        by_cases hkk : key = k2
        · simp [applyKeyOp, markDead, hkk]
        · simpa [applyKeyOp, markDead, hkk] using hm
      | available k2 =>
        have hne : ¬ (key = k2) := by
          intro hkk; subst hkk; simp [touchesKey] at hop
        simpa [applyKeyOp, markAvailable, hne] using hm
    have hfold : applyKeyOps m (op :: rest) key
        = applyKeyOps (applyKeyOp m op) rest key := rfl
    rw [hfold]
    exact ih _ _ hrest hstep

/-- C3 (amended): after `markDead(c)`, `isAvailable(c)` stays false under
any further operations that are neither `markAvailable(c)` nor a fresh
`markCooldown(c, ·)`; after `markCooldown(c, d)` the key is unavailable
while `now ≤ unlockAt` and available strictly after `unlockAt`, with the
entry lazily evicted then. -/
theorem c3_theorem (ops : List KeyOp) (m : KeyStates) (key : String)
    (now duration t t2 : Nat)
    (hops : ∀ op ∈ ops, touchesKey key op = false)
    (ht : t ≤ now + duration) (ht2 : now + duration < t2) :
    (isAvailable (applyKeyOps (markDead m key) ops) key t).1 = false
    ∧ (isAvailable (markCooldown m key now duration) key t).1 = false
    ∧ (isAvailable (markCooldown m key now duration) key t2).1 = true
    ∧ (isAvailable (markCooldown m key now duration) key t2).2 key = none := by
  have hcd : markCooldown m key now duration key
      = some ⟨KeyStatusType.cooldown, now + duration⟩ := by simp [markCooldown]
  refine ⟨?_, ?_, ?_, ?_⟩
  · have hdead : applyKeyOps (markDead m key) ops key
        = some ⟨KeyStatusType.dead, 0⟩ :=
      applyKeyOps_dead_aux ops _ key hops (by simp [markDead])
    simp [isAvailable, hdead]
  · simp [isAvailable, hcd, Nat.not_lt.mpr ht]
  · simp [isAvailable, hcd, ht2]
  · simp [isAvailable, hcd, ht2, markAvailable]

/-- C3 counterexample: the claim asserts availability as soon as
`now ≥ unlockAt`, but at `now = unlockAt` the store still reports false
(Go `time.Now().After` is strict); and it asserts unavailability until
`markAvailable`, but a later `markCooldown` overrides the dead state and
expires without any `markAvailable` call. -/
theorem c3_counterexample :
    (isAvailable (markCooldown emptyKeyStates "k" 0 60) "k" 60).1 = false
    ∧ (isAvailable (markCooldown (markDead emptyKeyStates "k") "k" 0 0) "k" 1).1
        = true := by decide

/-- C3 witness: the amended lifecycle at concrete inputs. -/
theorem c3_witness :
    (isAvailable (applyKeyOps (markDead emptyKeyStates "k") [KeyOp.dead "j"]) "k" 30).1
        = false
    ∧ (isAvailable (markCooldown emptyKeyStates "k" 0 60) "k" 30).1 = false
    ∧ (isAvailable (markCooldown emptyKeyStates "k" 0 60) "k" 100).1 = true
    ∧ (isAvailable (markCooldown emptyKeyStates "k" 0 60) "k" 100).2 "k" = none :=
  c3_theorem [KeyOp.dead "j"] emptyKeyStates "k" 0 60 30 100
    (by decide) (by decide) (by decide)

/-- C1 (amended): on upstream status 429, 401 or 403 the dispatcher moves
the cursor through `advanceCursors` and leaves the credential health store
untouched — no `markCooldown`, no `markDead`. -/
theorem c1_theorem (states : KeyStates) (c : Cursor) (key : String)
    (statusCode totalModels totalKeys : Nat) (isPinned : Bool) (strategy : String)
    (hs : statusCode = 429 ∨ statusCode = 401 ∨ statusCode = 403) :
    handleFailureStatus states c key statusCode totalModels totalKeys isPinned strategy
      = (states, (advanceCursors c totalModels totalKeys isPinned strategy).1) := by
  rcases hs with rfl | rfl | rfl <;> rfl

/-- C1 counterexample: the claim requires a 429 outcome to put the key in
cooldown and a 401 outcome to kill it, but after the failure branch the
store still has no entry for the key, unlike the store the claim
prescribes. -/
theorem c1_counterexample :
    (handleFailureStatus emptyKeyStates ⟨0, 0⟩ "k" 429 1 2 false "fallback").1 "k"
        = none
    ∧ markCooldown emptyKeyStates "k" 0 60 "k" ≠ none
    ∧ (handleFailureStatus emptyKeyStates ⟨0, 0⟩ "k" 401 1 2 false "fallback").1 "k"
        = none
    ∧ markDead emptyKeyStates "k" "k" ≠ none := by decide

/-- C1 witness: the amended behaviour at status 429. -/
theorem c1_witness :
    handleFailureStatus emptyKeyStates ⟨0, 0⟩ "k" 429 1 2 false "fallback"
      = (emptyKeyStates, (advanceCursors ⟨0, 0⟩ 1 2 false "fallback").1) :=
  c1_theorem emptyKeyStates ⟨0, 0⟩ "k" 429 1 2 false "fallback" (Or.inl rfl)

/-- The success/error split invariant is preserved by every fold step. -/
theorem updateStats_foldl_inv (calls : List (Bool × Float)) :
    ∀ st : ModelStatsC, st.success + st.error = st.requestCount →
      (calls.foldl (fun st c => updateStats st c.1 c.2) st).success
          + (calls.foldl (fun st c => updateStats st c.1 c.2) st).error
        = (calls.foldl (fun st c => updateStats st c.1 c.2) st).requestCount := by
  induction calls with
  | nil => intro st h; simpa using h
  | cons c rest ih =>
    intro st h
    simp only [List.foldl_cons]
    apply ih
    cases hc : c.1 <;> simp [updateStats, hc] <;> omega

/-- C10: each `UpdateStats` call bumps the request count by one and exactly
one of success or error by one, so `success + error = requestCount` holds
for every record reachable from the zero record. -/
theorem c10_theorem (s : ModelStatsC) (ok : Bool) (lat : Float)
    (calls : List (Bool × Float)) :
    (updateStats s ok lat).requestCount = s.requestCount + 1
    ∧ (updateStats s ok lat).success + (updateStats s ok lat).error
        = s.success + s.error + 1
    ∧ (runUpdateStats calls).success + (runUpdateStats calls).error
        = (runUpdateStats calls).requestCount := by
  refine ⟨rfl, ?_, ?_⟩
  · cases ok <;> simp [updateStats] <;> omega
  · exact updateStats_foldl_inv calls zeroStats (by simp [zeroStats])

/-- Each loop iteration issues at most one upstream call, so the call count
grows by at most the remaining fuel. -/
theorem runLoop_calls_le (keys : List (List String)) (isPinned : Bool)
    (strategy : String) (oracle : Nat → Outcome) :
    ∀ (fuel mc kc calls : Nat) (ls : Option Nat),
      (runLoop keys isPinned strategy oracle mc kc calls ls fuel).calls
        ≤ calls + fuel := by
  intro fuel
  induction fuel with
  | zero => intro mc kc calls ls; simp [runLoop]
  | succ fuel ih =>
    intro mc kc calls ls
    simp only [runLoop]
    split
    · split
      · simp
      · split
        · simp
        · exact le_trans (ih _ _ _ _) (by omega)
    · split
      · exact le_trans (ih _ _ _ _) (by omega)
      · split
        · simp
        · exact le_trans (ih _ _ _ _) (by omega)

/-- C2 (amended): the attempt budget is `clamp(floor(1.5 * totalKeys), 3, 12)`
— `int(float64(totalKeys) * 1.5)` truncates — and the dispatch loop issues
at most that many upstream calls for every outcome oracle and starting
cursor. -/
theorem c2_theorem (snap : Snapshot) (gid : String) (isPinned : Bool)
    (strategy : String) (oracle : Nat → Outcome) (mc kc : Nat) :
    calculateMaxRetries snap gid
      = min 12 (max 3 (3 * totalKeysOfGroup snap gid / 2))
    ∧ (runLoop (groupKeyLists snap gid) isPinned strategy oracle mc kc 0 none
          (calculateMaxRetries snap gid)).calls
        ≤ calculateMaxRetries snap gid := by
  constructor
  · unfold calculateMaxRetries totalKeysOfGroup
    cases hg : findGroup snap gid with
    | none => simp
    | some g =>
      by_cases hm : g.models.length = 0
      · have hnil : g.models = [] := List.length_eq_zero.mp hm
        simp [hm, hnil]
      · simp only [hm, if_false]
        rw [Nat.min_def, Nat.max_def]
        split_ifs <;> omega
  · have h := runLoop_calls_le (groupKeyLists snap gid) isPinned strategy oracle
      (calculateMaxRetries snap gid) mc kc 0 none
    simpa using h

/-- C2 counterexample: with one model holding three keys the code computes
`int(4.5) = 4`, while the claimed `clamp(ceil(4.5), 3, 12)` is 5. -/
theorem c2_counterexample :
    calculateMaxRetries c2Snapshot "g" = 4
    ∧ maxAttemptsClaimed c2Snapshot "g" = 5
    ∧ calculateMaxRetries c2Snapshot "g" ≠ maxAttemptsClaimed c2Snapshot "g" := by
  decide

/-- C6 (amended): whenever the retry budget is exhausted, the client
receives HTTP status 502 — for every outcome oracle, including runs whose
last attempt reached the upstream and got a non-network status. -/
theorem c6_theorem (keys : List (List String)) (isPinned : Bool) (strategy : String)
    (oracle : Nat → Outcome) (mc kc calls : Nat) (ls : Option Nat) (fuel : Nat)
    (h : (runLoop keys isPinned strategy oracle mc kc calls ls fuel).outcome
        = LoopOutcome.exhausted) :
    finalClientStatus (runLoop keys isPinned strategy oracle mc kc calls ls fuel)
      = 502 := by
  rcases hr : runLoop keys isPinned strategy oracle mc kc calls ls fuel with ⟨cl, l, out⟩
  rw [hr] at h
  cases out
  · simp at h
  · simp at h
  · rfl

/-- C6 counterexample: a run whose three attempts all received status 429
ends with client status 502, while the claim prescribes forwarding the
last upstream status 429. -/
theorem c6_counterexample :
    c6Run.outcome = LoopOutcome.exhausted
    ∧ c6Run.lastStatus = some 429
    ∧ finalClientStatus c6Run = 502
    ∧ finalStatusClaimed c6Run = 429
    ∧ finalClientStatus c6Run ≠ finalStatusClaimed c6Run := by decide

/-- C6 witness: the amended behaviour on the concrete exhausted run. -/
theorem c6_witness :
    finalClientStatus
        (runLoop [["k1"]] false "fallback" (fun _ => Outcome.status 429) 0 0 0 none 3)
      = 502 :=
  c6_theorem [["k1"]] false "fallback" (fun _ => Outcome.status 429) 0 0 0 none 3
    (by decide)

/-- C4 (amended): for a dollar-free token the parser scans the groups for a
matching upstream-model name first (pin on match) and treats the token as
a plain non-pinned group id otherwise — whether or not a group with that
id exists. -/
theorem c4_theorem (groups : GroupTable) (tok : String)
    (h : strContainsChar tok '$' = false) :
    parseModelRouting groups tok = parseNoDollarAmended groups tok := by
  unfold parseModelRouting parseNoDollarAmended
  by_cases htok : tok = ""
  · simp [htok]
  · rw [if_neg htok, if_neg htok, h]
    simp only [Bool.not_false, if_true]
    cases hfm : findModelMatch groups tok with
    | none => simp
    | some p => obtain ⟨gid, idx⟩ := p; rfl

/-- C4 counterexample: the token "g2" names both a group and a model
inside group g1; the code pins to the model in g1, while the claimed
group-first order would return the non-pinned group g2. -/
theorem c4_counterexample :
    parseModelRouting c4Groups "g2" = ⟨"g1", some 0, true⟩
    ∧ parseNoDollarClaimed c4Groups "g2" = ⟨"g2", none, false⟩
    ∧ parseModelRouting c4Groups "g2" ≠ parseNoDollarClaimed c4Groups "g2" := by
  decide

/-- C4 witness: the amended parse order at a concrete dollar-free token. -/
theorem c4_witness :
    parseModelRouting [("g", ["m"])] "m" = parseNoDollarAmended [("g", ["m"])] "m" :=
  c4_theorem [("g", ["m"])] "m" (by decide)

/-- C9: every pinned routing info produced by `ParseModelRouting` carries a
present, non-negative model index. -/
theorem c9_theorem (groups : GroupTable) (input : String)
    (h : (parseModelRouting groups input).isPinned = true) :
    ∃ i : Int, (parseModelRouting groups input).modelIndex = some i ∧ 0 ≤ i := by
  revert h
  unfold parseModelRouting
  split
  · intro h; simp at h
  · split
    · split
      · rename_i gid idx heq
        intro _
        exact ⟨(idx : Int), rfl, Int.natCast_nonneg idx⟩
      · split
        · intro h; simp at h
        · intro h; simp at h
    · dsimp only
      split
      · intro h; simp at h
      · split
        · intro h; simp at h
        · split
          · intro h; simp at h
          · rename_i v heq hv
            intro _
            exact ⟨v - 1, rfl, by omega⟩

/-- C9 witness: a concrete pinned parse. -/
theorem c9_witness :
    ∃ i : Int, (parseModelRouting c9Groups "g$2").modelIndex = some i ∧ 0 ≤ i :=
  c9_theorem c9Groups "g$2" (by decide)

/-- C7 (amended): on the quit signal the worker flushes exactly the pending
batch — independently of what is still queued in the channel — and
anything already persisted stays persisted across every schedule. -/
theorem c7_theorem :
    (∀ (chan batch store : List RequestLogC) (evs : List WorkerEvent),
        workerRun chan batch store (WorkerEvent.quit :: evs) = store ++ batch)
    ∧ (∀ (evs : List WorkerEvent) (chan batch store : List RequestLogC)
          (lg : RequestLogC), lg ∈ store → lg ∈ workerRun chan batch store evs) := by
  constructor
  · intro chan batch store evs
    by_cases hb : batch.isEmpty
    · have hnil : batch = [] := List.isEmpty_iff.mp hb
      simp [workerRun, hb, hnil]
    · simp [workerRun, hb]
  · intro evs
    induction evs with
    | nil => intro chan batch store lg hl; simpa [workerRun] using hl
    | cons ev rest ih =>
      intro chan batch store lg hl
      cases ev with
      | recv =>
        cases chan with
        | nil =>
          simp only [workerRun]
          exact ih _ _ _ _ hl
        | cons l rest2 =>
          simp only [workerRun]
          split
          · exact ih _ _ _ _ (List.mem_append_left _ hl)
          · exact ih _ _ _ _ hl
      | tick =>
        simp only [workerRun]
        split
        · exact ih _ _ _ _ hl
        · exact ih _ _ _ _ (List.mem_append_left _ hl)
      | quit =>
        simp only [workerRun]
        split
        · exact hl
        · exact List.mem_append_left _ hl

/-- C7 counterexample: a log accepted by `Log` (channel not full) that is
still in the channel when quit is scheduled is absent from the store after
`Close()` returns — the worker does not drain the channel. -/
theorem c7_counterexample :
    logEnqueue [] c7Log = [c7Log]
    ∧ workerRun (logEnqueue [] c7Log) [] [] [WorkerEvent.quit] = []
    ∧ c7Log ∉ workerRun (logEnqueue [] c7Log) [] [] [WorkerEvent.quit] := by decide

/-- C7 witness: quit flushes the pending batch; flushed logs persist. -/
theorem c7_witness :
    workerRun [] [c7Log] [c7Log] [WorkerEvent.quit] = [c7Log] ++ [c7Log]
    ∧ c7Log ∈ workerRun [] [] [c7Log] [WorkerEvent.tick] :=
  ⟨c7_theorem.1 [] [c7Log] [c7Log] [],
   c7_theorem.2 [WorkerEvent.tick] [] [] [c7Log] c7Log (by decide)⟩

/-- Any string contains its own appended tail. -/
theorem strContains_append_self (x y : String) :
    strContains (x ++ y) y = true := by
  unfold strContains
  rw [String.data_append, List.any_eq_true]
  exact ⟨y.data, (List.mem_tails _ _).mpr (List.suffix_append _ _),
    List.isPrefixOf_iff_prefix.mpr (List.prefix_refl _)⟩

/-- C8 (amended): the adapter appends `/chat/completions` precisely when
the path lacks all recognized endpoint markers AND looks like a bare base
path (empty, root, or ending in /v1 or /v1/). -/
theorem c8_theorem (path : String) :
    autoAppendPath path
      = (if pathLacksEndpointMarkers path && pathLooksLikeBase path
          then goTrimOneSlash path ++ "/chat/completions" else path)
    ∧ (autoAppendPath path ≠ path
        ↔ (pathLacksEndpointMarkers path && pathLooksLikeBase path) = true) := by
  have hchar : autoAppendPath path
      = (if pathLacksEndpointMarkers path && pathLooksLikeBase path
          then goTrimOneSlash path ++ "/chat/completions" else path) := by
    unfold autoAppendPath
    by_cases h1 : pathLacksEndpointMarkers path = true
    · by_cases h2 : pathLooksLikeBase path = true <;> simp [h1, h2]
    · simp [h1, Bool.and_eq_true]
  refine ⟨hchar, ?_, ?_⟩
  · intro hne
    by_contra hc
    apply hne
    rw [hchar, if_neg hc]
  · intro hcond
    rw [hchar, if_pos hcond]
    intro heq
    have hcontains : strContains path "/chat/completions" = true := by
      rw [← heq]; exact strContains_append_self _ _
    have hlacks : pathLacksEndpointMarkers path = true := by
      have hcond2 := hcond
      simp only [Bool.and_eq_true] at hcond2
      exact hcond2.1
    unfold pathLacksEndpointMarkers at hlacks
    rw [hcontains] at hlacks
    simp at hlacks

/-- C8 counterexample: the path "/api/x" lacks every recognized endpoint
marker, yet the adapter leaves it unchanged — the claimed "iff" fails in
the append direction. -/
theorem c8_counterexample :
    pathLacksEndpointMarkers "/api/x" = true
    ∧ autoAppendPath "/api/x" = "/api/x"
    ∧ strContains (autoAppendPath "/api/x") "/chat/completions" = false := by
  decide

/-- Two is coprime to every odd number. -/
theorem gcd_two_of_odd (k : Nat) (hk : k % 2 = 1) : Nat.gcd 2 k = 1 := by
  rw [Nat.gcd_rec, hk]
  exact Nat.gcd_one_left 2

/-- For odd `k`, doubling modulo `k` permutes the residues. -/
theorem rrBlock_perm (k : Nat) (hk : k % 2 = 1) :
    ((List.range k).map (fun i => 2 * i % k)).Perm (List.range k) := by
  have hk0 : 0 < k := by omega
  have hco : Nat.gcd k 2 = 1 := by
    rw [Nat.gcd_comm]
    exact gcd_two_of_odd k hk
  have hnodup : ((List.range k).map (fun i => 2 * i % k)).Nodup := by
    refine List.Nodup.map_on ?_ (List.nodup_range k)
    intro x hx y hy hxy
    have hx2 : x < k := List.mem_range.mp hx
    have hy2 : y < k := List.mem_range.mp hy
    have hmod : 2 * x ≡ 2 * y [MOD k] := hxy
    have hxy2 : x % k = y % k := Nat.ModEq.cancel_left_of_coprime hco hmod
    rwa [Nat.mod_eq_of_lt hx2, Nat.mod_eq_of_lt hy2] at hxy2
  have hsub : ((List.range k).map (fun i => 2 * i % k)) ⊆ List.range k := by
    intro a ha
    obtain ⟨i, _, rfl⟩ := List.mem_map.mp ha
    exact List.mem_range.mpr (Nat.mod_lt _ hk0)
  refine (hnodup.subperm hsub).perm_of_length_le ?_
  simp

/-- Each block of `k` consecutive indices hits every residue exactly once
when `k` is odd. -/
theorem rrBlock_count (k r : Nat) (hk : k % 2 = 1) (hr : r < k) :
    ((List.range k).map (fun i => 2 * i % k)).count r = 1 := by
  rw [(rrBlock_perm k hk).count_eq]
  exact List.count_eq_one_of_mem (List.nodup_range k) (List.mem_range.mpr hr)

/-- Across `n * k` indices, every residue appears exactly `n` times when
`k` is odd. -/
theorem rrRange_count (k r : Nat) (hk : k % 2 = 1) (hr : r < k) :
    ∀ n : Nat, ((List.range (n * k)).map (fun i => 2 * i % k)).count r = n := by
  intro n
  induction n with
  | zero => simp
  | succ n ih =>
    have hsplit : (n + 1) * k = n * k + k := by ring
    rw [hsplit, List.range_add, List.map_append, List.count_append, ih]
    have hmap : ((List.range k).map (fun x => n * k + x)).map (fun i => 2 * i % k)
        = (List.range k).map (fun i => 2 * i % k) := by
      rw [List.map_map]
      refine List.map_congr_left ?_
      intro a _
      show 2 * (n * k + a) % k = 2 * a % k
      have harith : 2 * (n * k + a) = 2 * a + (2 * n) * k := by ring
      rw [harith, Nat.add_mul_mod_self_right]
    rw [hmap, rrBlock_count k r hk hr]

/-- One non-pinned round-robin `Route` call with a wrap-free counter: the
counter advances by exactly two (one `Add(1)` for model selection, one for
key rotation) and the chosen model index is `counter % k`. -/
theorem routeC_rr_step (models : List ModelConfigC) (keysOf : Nat → List String)
    (ks : KeyStates) (now c : Nat)
    (hm : models ≠ []) (hkeys : ∀ m ∈ models, keysOf m.id ≠ [])
    (hc : c + 2 < U64) :
    (routeC "round_robin" models keysOf none ks now c).counterAfter = c + 2
    ∧ (routeC "round_robin" models keysOf none ks now c).modelIdx
        = some (c % models.length) := by
  have hU1 : 1 ≤ U64 := by decide
  have hc1 : u64add1 c = c + 1 := by
    unfold u64add1
    exact Nat.mod_eq_of_lt (by omega)
  have hc2 : u64add1 (c + 1) = c + 2 := by
    unfold u64add1
    exact Nat.mod_eq_of_lt (by omega)
  have hsel : rrSelectIdx (c + 1) models.length = c % models.length := by
    unfold rrSelectIdx
    have harith : c + 1 + (U64 - 1) = c + U64 := by omega
    rw [harith, Nat.add_mod_right, Nat.mod_eq_of_lt (show c < U64 by omega)]
  obtain ⟨m0, ms, rfl⟩ : ∃ m0 ms, models = m0 :: ms := by
    cases models with
    | nil => exact absurd rfl hm
    | cons m0 ms => exact ⟨m0, ms, rfl⟩
  have hlen : 0 < (m0 :: ms).length := by simp
  have hmem : (m0 :: ms).getD (c % (m0 :: ms).length) ⟨0, ""⟩ ∈ (m0 :: ms) := by
    rw [List.getD_eq_getElem _ _ (Nat.mod_lt _ hlen)]
    exact List.getElem_mem _
  have hkne : keysOf ((m0 :: ms).getD (c % (m0 :: ms).length) ⟨0, ""⟩).id ≠ [] :=
    hkeys _ hmem
  have hklen : (keysOf ((m0 :: ms).getD (c % (m0 :: ms).length) ⟨0, ""⟩).id).length ≠ 0 := by
    simpa [List.length_eq_zero] using hkne
  unfold routeC selectIdxByStrategy
  simp only [hc1]
  rw [if_neg (by decide : ¬ ("round_robin" = "fallback"))]
  unfold routeKeyPhase
  simp only [hsel]
  rw [if_neg hklen]
  simp only [hc2]
  constructor <;> trivial

/-- Characterization of the simulated model choices: starting from a
wrap-free counter `c`, call `j` selects model `(c + 2 j) % k`. -/
theorem routeSim_rr_char (models : List ModelConfigC) (keysOf : Nat → List String)
    (ks : KeyStates) (now : Nat)
    (hm : models ≠ []) (hkeys : ∀ m ∈ models, keysOf m.id ≠ []) :
    ∀ (n c : Nat), c + 2 * n < U64 →
      routeSimModels "round_robin" models keysOf ks now c n
        = (List.range n).map (fun j => some ((c + 2 * j) % models.length)) := by
  intro n
  induction n with
  | zero => intro c _; simp [routeSimModels]
  | succ n ih =>
    intro c hc
    obtain ⟨hca, hmi⟩ := routeC_rr_step models keysOf ks now c hm hkeys (by omega)
    simp only [routeSimModels]
    rw [hmi, hca, ih (c + 2) (by omega)]
    rw [List.range_succ_eq_map, List.map_cons, List.map_map]
    congr 1
    refine List.map_congr_left ?_
    intro a _
    show some ((c + 2 + 2 * a) % models.length)
        = some ((c + 2 * (a + 1)) % models.length)
    have harith : c + 2 + 2 * a = c + 2 * (a + 1) := by ring
    rw [harith]

/-- Counting through the `some` wrapper. -/
theorem count_map_some (l : List Nat) (r : Nat) :
    (l.map some).count (some r) = l.count r := by
  induction l with
  | nil => rfl
  | cons a t ih => simp [List.count_cons, ih]

/-- Fairness of the simulated dispatcher for odd model counts: from a fresh
counter, across `n * k` calls each model index is chosen exactly `n`
times. -/
theorem routeSim_fairness (models : List ModelConfigC) (keysOf : Nat → List String)
    (ks : KeyStates) (now n r : Nat)
    (hk : models.length % 2 = 1) (hr : r < models.length)
    (hkeys : ∀ m ∈ models, keysOf m.id ≠ [])
    (hbound : 2 * (n * models.length) < U64) :
    (routeSimModels "round_robin" models keysOf ks now 0 (n * models.length)).count
        (some r) = n := by
  have hm : models ≠ [] := by
    intro h
    rw [h] at hr
    simp at hr
  rw [routeSim_rr_char models keysOf ks now hm hkeys (n * models.length) 0 (by omega)]
  have hfun : (fun j => some ((0 + 2 * j) % models.length))
      = (fun j => some (2 * j % models.length)) := by
    funext j
    rw [Nat.zero_add]
  rw [hfun]
  have hcomp : (List.range (n * models.length)).map
        (fun j => some (2 * j % models.length))
      = ((List.range (n * models.length)).map
          (fun j => 2 * j % models.length)).map some := by
    rw [List.map_map]
    rfl
  rw [hcomp, count_map_some]
  exact rrRange_count models.length r hk hr n

/-- The wrap-free form of the round-robin index. -/
theorem rrSelect_formula (configs : List ModelConfigC) (counter : Nat)
    (h1 : 1 ≤ counter) (h2 : counter < U64) :
    rrSelect configs counter = configs.get? ((counter - 1) % configs.length)
    ∧ (rrSelect configs counter = none ↔ configs = []) := by
  have hidx : rrSelectIdx counter configs.length
      = (counter - 1) % configs.length := by
    unfold rrSelectIdx
    have hU1 : 1 ≤ U64 := by decide
    have harith : counter + (U64 - 1) = (counter - 1) + U64 := by omega
    rw [harith, Nat.add_mod_right,
      Nat.mod_eq_of_lt (show counter - 1 < U64 by omega)]
  cases configs with
  | nil => simp [rrSelect]
  | cons a l =>
    refine ⟨?_, ?_, ?_⟩
    · show (a :: l).get? (rrSelectIdx counter (a :: l).length)
          = (a :: l).get? ((counter - 1) % (a :: l).length)
      rw [hidx]
    · intro hnone
      exfalso
      have hlt : rrSelectIdx counter (a :: l).length < (a :: l).length :=
        Nat.mod_lt _ (by simp)
      have : (a :: l).get? (rrSelectIdx counter (a :: l).length) ≠ none := by
        rw [List.get?_eq_getElem?, List.getElem?_eq_getElem hlt]
        simp
      exact this hnone
    · intro hnil
      simp at hnil

/-- C5 (amended): `RoundRobinStrategy.Select` picks `(counter - 1) mod k`
and fails only on an empty list; `LoadBalancer.Route` increments the group
counter twice per non-pinned call (model selection plus key rotation); in
consequence, from a fresh counter, `n * k` consecutive no-failure calls
choose each model exactly `n` times precisely for odd `k` — the simulated
index sequence steps by two. -/
theorem c5_theorem (configs : List ModelConfigC) (counter : Nat)
    (h1 : 1 ≤ counter) (h2 : counter < U64)
    (models : List ModelConfigC) (keysOf : Nat → List String)
    (ks : KeyStates) (now c n r : Nat)
    (hm : models ≠ []) (hkeys : ∀ m ∈ models, keysOf m.id ≠ [])
    (hc : c + 2 < U64)
    (hk : models.length % 2 = 1) (hr : r < models.length)
    (hbound : 2 * (n * models.length) < U64) :
    (rrSelect configs counter = configs.get? ((counter - 1) % configs.length)
      ∧ (rrSelect configs counter = none ↔ configs = []))
    ∧ (routeC "round_robin" models keysOf none ks now c).counterAfter = c + 2
    ∧ (routeSimModels "round_robin" models keysOf ks now 0 (n * models.length)).count
        (some r) = n :=
  ⟨rrSelect_formula configs counter h1 h2,
   (routeC_rr_step models keysOf ks now c hm hkeys hc).1,
   routeSim_fairness models keysOf ks now n r hk hr hkeys hbound⟩

/-- C5 counterexample: with two models the counter is bumped twice per
call, so two consecutive calls both select model 0 — model 1 is chosen 0
times instead of the claimed once — and after a single call the counter
holds 2, not the claimed 1. -/
theorem c5_counterexample :
    routeSimModels "round_robin" c5Models c5Keys emptyKeyStates 0 0 2
        = [some 0, some 0]
    ∧ (routeSimModels "round_robin" c5Models c5Keys emptyKeyStates 0 0 2).count
        (some 1) = 0
    ∧ (routeC "round_robin" c5Models c5Keys none emptyKeyStates 0 0).counterAfter
        = 2 := by decide

/-- C5 witness: the amended statement at a one-model group (odd `k`). -/
theorem c5_witness :
    (rrSelect c5Models 5 = c5Models.get? ((5 - 1) % c5Models.length)
      ∧ (rrSelect c5Models 5 = none ↔ c5Models = []))
    ∧ (routeC "round_robin" [(⟨1, "m1"⟩ : ModelConfigC)] c5Keys none
          emptyKeyStates 0 0).counterAfter = 0 + 2
    ∧ (routeSimModels "round_robin" [(⟨1, "m1"⟩ : ModelConfigC)] c5Keys
          emptyKeyStates 0 0
          (2 * (List.length [(⟨1, "m1"⟩ : ModelConfigC)]))).count (some 0) = 2 :=
  c5_theorem c5Models 5 (by decide) (by decide) [⟨1, "m1"⟩] c5Keys
    emptyKeyStates 0 0 2 0 (by decide) (by decide) (by decide) (by decide)
    (by decide) (by decide)

/-- C2 witness: the amended budget and bound at a concrete snapshot. -/
theorem c2_witness :
    calculateMaxRetries c2Snapshot "g"
        = min 12 (max 3 (3 * totalKeysOfGroup c2Snapshot "g" / 2))
    ∧ (runLoop (groupKeyLists c2Snapshot "g") false "fallback"
          (fun _ => Outcome.netErr) 0 0 0 none
          (calculateMaxRetries c2Snapshot "g")).calls
        ≤ calculateMaxRetries c2Snapshot "g" :=
  c2_theorem c2Snapshot "g" false "fallback" (fun _ => Outcome.netErr) 0 0

/-- C8 witness: the amended append condition at a concrete base path. -/
theorem c8_witness :
    autoAppendPath "/v1"
      = (if pathLacksEndpointMarkers "/v1" && pathLooksLikeBase "/v1"
          then goTrimOneSlash "/v1" ++ "/chat/completions" else "/v1")
    ∧ (autoAppendPath "/v1" ≠ "/v1"
        ↔ (pathLacksEndpointMarkers "/v1" && pathLooksLikeBase "/v1") = true) :=
  c8_theorem "/v1"

/-- C10 witness: the stats invariant on a concrete call sequence. -/
theorem c10_witness :
    (updateStats zeroStats true 0).requestCount = zeroStats.requestCount + 1
    ∧ (updateStats zeroStats true 0).success + (updateStats zeroStats true 0).error
        = zeroStats.success + zeroStats.error + 1
    ∧ (runUpdateStats [(true, 0), (false, 0)]).success
          + (runUpdateStats [(true, 0), (false, 0)]).error
        = (runUpdateStats [(true, 0), (false, 0)]).requestCount :=
  c10_theorem zeroStats true 0 [(true, 0), (false, 0)]

end LLMRouter
